import Mathlib

/-!
Verification development for the cross-thread invocation framework exercised by
the Logger integration tests (`src/Logger/it/Logger_IT.cpp`).

The repository ships only the integration-test callers; the implementation
components (CompletionSignal/SignalThread, WorkerThread, AsyncInvoke, Timer,
LogData, Logger) are consumed through headers not present in the sources.
Each such component is therefore modelled from the specification text, with
timing made explicit: wall-clock instants are natural numbers (or integers for
signed millisecond durations), and the moment the owner thread executes a
request and signals its CompletionSignal is an abstract parameter.
-/

namespace ITFramework

/-! ### CompletionSignal -/

/-- Modelled from the spec: `CompletionSignal` (code name `SignalThread`) is a
single-waiter synchronization primitive holding a boolean signaled state.
The implementation is not under `src/`. -/
structure CompletionSignal where
  signaled : Bool
deriving DecidableEq, Repr

/-- Modelled from the spec: `SetSignal()` sets the signaled state and wakes a
blocked waiter (or records already-signaled if no one is waiting yet). -/
def CompletionSignal.SetSignal (_s : CompletionSignal) : CompletionSignal :=
  { signaled := true }

/-- Modelled from the spec: an explicit reset clears the signaled state. -/
def CompletionSignal.Reset (_s : CompletionSignal) : CompletionSignal :=
  { signaled := false }

/-- Modelled from the spec: `WaitForSignal(timeoutMs)` in a timed model.
`sigTime` is the instant `SetSignal` runs (`none` if it never runs), `t0` the
instant the wait starts, `T` the timeout.  The result is the boolean outcome
paired with the instant the waiter resumes: an already-set signal is observed
immediately (resume at `t0`); a signal set during the window wakes the waiter
at that instant; otherwise the wait expires at `t0 + T`. -/
def WaitForSignal (sigTime : Option Nat) (t0 T : Nat) : Bool × Nat :=
  match sigTime with
  | some ts =>
      if ts ≤ t0 then (true, t0)
      else if ts ≤ t0 + T then (true, ts)
      else (false, t0 + T)
  | none => (false, t0 + T)

/-! ### AsyncInvoke (blocking variant) -/

/-- Modelled from the spec: the blocking `AsyncInvoke` builds a request with a
fresh CompletionSignal, enqueues it on the owner WorkerThread, and blocks on
`WaitForSignal`.  `running` is whether the owner WorkerThread is running
(enqueue succeeds), `sigTime` the instant the owner thread executes the
request and signals completion (`none` if never), `ret` the operation's
return value.  Result: the optional outcome paired with the instant the
caller resumes; a failed enqueue returns immediately (at `t0`) with an
absent optional. -/
def AsyncInvoke (running : Bool) (sigTime : Option Nat) (t0 T : Nat)
    (ret : α) : Option α × Nat :=
  if running then
    let w := WaitForSignal sigTime t0 T
    ((if w.1 then some ret else none), w.2)
  else (none, t0)

/-- C1: for a blocking AsyncInvoke with timeout `T`, the returned optional is
present (and holds the operation's return value) iff the owner WorkerThread
is running and signaled completion no later than `t0 + T`; it is absent
exactly when the timeout elapsed first or the enqueue failed, and an enqueue
on a non-running WorkerThread fails immediately (resume instant `t0`, no
wait) rather than silently dropping or blocking. -/
theorem asyncInvoke_some_iff_signaled_before_timeout
    (running : Bool) (sigTime : Option Nat) (t0 T : Nat) (ret : Nat) :
    ((AsyncInvoke running sigTime t0 T ret).1.isSome ↔
      running = true ∧ ∃ ts, sigTime = some ts ∧ ts ≤ t0 + T) ∧
    (∀ v, (AsyncInvoke running sigTime t0 T ret).1 = some v → v = ret) ∧
    (running = false → AsyncInvoke running sigTime t0 T ret = (none, t0)) := by
  refine ⟨?_, ?_, ?_⟩
  · constructor
    · intro h
      cases running with
      | false => simp [AsyncInvoke] at h
      | true =>
        refine ⟨rfl, ?_⟩
        cases sigTime with
        | none => simp [AsyncInvoke, WaitForSignal] at h
        | some ts =>
          refine ⟨ts, rfl, ?_⟩
          by_contra hgt
          push_neg at hgt
          simp [AsyncInvoke, WaitForSignal, Nat.not_le.mpr hgt,
            Nat.not_le.mpr (lt_of_le_of_lt (Nat.le_add_right t0 T) hgt)] at h
    · rintro ⟨hr, ts, hsig, hts⟩
      subst hr; subst hsig
      by_cases h0 : ts ≤ t0
      · simp [AsyncInvoke, WaitForSignal, h0]
      · simp [AsyncInvoke, WaitForSignal, h0, hts]
  · intro v hv
    cases running with
    | false => simp [AsyncInvoke] at hv
    | true =>
      simp only [AsyncInvoke, if_true] at hv
      by_cases hw : (WaitForSignal sigTime t0 T).1 = true
      · simp [hw] at hv
        exact hv.symm
      · simp [Bool.not_eq_true] at hw
        simp [hw] at hv
  · intro h; subst h; rfl

/-- Witness for C1 at concrete inputs: owner running, signal at instant 7,
wait starting at 5 with timeout 10. -/
theorem asyncInvoke_some_iff_signaled_before_timeout_witness :
    ((AsyncInvoke true (some 7) 5 10 42).1.isSome ↔
      true = true ∧ ∃ ts, (some 7 : Option Nat) = some ts ∧ ts ≤ 5 + 10) ∧
    (∀ v, (AsyncInvoke true (some 7) 5 10 42).1 = some v → v = 42) ∧
    (true = false → AsyncInvoke true (some 7) 5 10 42 = (none, 5)) :=
  asyncInvoke_some_iff_signaled_before_timeout true (some 7) 5 10 42

/-- C5: if `SetSignal` happens-before `WaitForSignal` starts (`ts ≤ t0`), the
wait returns `true` immediately — the resume instant equals the start instant
`t0`, with no blocking; more generally a signal set at any instant up to the
expiry of the window, including one concurrent with the wait's start, is
never lost. -/
theorem waitForSignal_no_lost_wakeup (ts t0 T : Nat) :
    (ts ≤ t0 → WaitForSignal (some ts) t0 T = (true, t0)) ∧
    (ts ≤ t0 + T → (WaitForSignal (some ts) t0 T).1 = true) := by
  constructor
  · intro h; simp [WaitForSignal, h]
  · intro h
    by_cases h0 : ts ≤ t0
    · simp [WaitForSignal, h0]
    · simp [WaitForSignal, h0, h]

/-- Witness for C5: signal set at instant 2, wait starting at 3 with
timeout 10 returns true immediately at instant 3. -/
theorem waitForSignal_no_lost_wakeup_witness :
    WaitForSignal (some 2) 3 10 = (true, 3) :=
  (waitForSignal_no_lost_wakeup 2 3 10).1 (by decide)

/-- Any single `SetSignal` leaves the signal in the signaled state, whatever
the previous state. -/
theorem setSignal_eq (s : CompletionSignal) :
    s.SetSignal = { signaled := true } := rfl

/-- C6: `SetSignal` is idempotent — for every `k ≥ 1`, `k` consecutive
`SetSignal` calls without an intervening reset leave exactly the state one
call leaves (a single boolean signaled state, so the repeated calls can
satisfy at most one pending `WaitForSignal` until an explicit `Reset`). -/
theorem setSignal_idempotent (s : CompletionSignal) (k : Nat) (hk : 1 ≤ k) :
    CompletionSignal.SetSignal^[k] s = s.SetSignal ∧
    (CompletionSignal.SetSignal^[k] s).signaled = true := by
  obtain ⟨n, rfl⟩ : ∃ n, k = n + 1 := ⟨k - 1, (Nat.succ_pred_eq_of_pos hk).symm⟩
  clear hk
  induction n generalizing s with
  | zero => exact ⟨rfl, rfl⟩
  | succ m ih =>
    have hstep : CompletionSignal.SetSignal^[m + 1 + 1] s =
        CompletionSignal.SetSignal^[m + 1] s.SetSignal := by
      rw [Function.iterate_succ_apply]
    refine ⟨?_, ?_⟩
    · rw [hstep, (ih s.SetSignal).1]; rfl
    · rw [hstep, (ih s.SetSignal).1]; rfl

/-- Witness for C6: three consecutive `SetSignal` calls on an unsignaled
instance equal one call. -/
theorem setSignal_idempotent_witness :
    CompletionSignal.SetSignal^[3] { signaled := false } =
      CompletionSignal.SetSignal { signaled := false } ∧
    (CompletionSignal.SetSignal^[3]
      ({ signaled := false } : CompletionSignal)).signaled = true :=
  setSignal_idempotent { signaled := false } 3 (by decide)

/-! ### WorkerThread -/

/-- Modelled from the spec: a `WorkerThread` owns an ordered FIFO queue of
InvocationRequests (identified here by numbers) and exactly one execution
thread.  `current` is the list of requests executing at this instant (the
single loop thread holds at most one, which the reachability invariant
proves); `executed` records completed requests in completion order;
`arrived` is the history of requests in arrival (enqueue) order.  The
implementation is not under `src/`. -/
structure Worker where
  running : Bool
  queue : List Nat
  current : List Nat
  executed : List Nat
  arrived : List Nat
deriving DecidableEq, Repr

/-- Modelled from the spec: `Enqueue(request)` pushes to the tail of the
queue if the WorkerThread is running; if it is not running the call fails
immediately, leaving the state unchanged. -/
def Enqueue (w : Worker) (r : Nat) : Worker × Bool :=
  if w.running then
    ({ w with queue := w.queue ++ [r], arrived := w.arrived ++ [r] }, true)
  else (w, false)

/-- Modelled from the spec: one transition of the system around a
WorkerThread.  `enq` is a successful Enqueue from some calling thread;
`begin` is the execution loop popping the head of the queue when it is not
executing anything (the loop fully completes one request before the next
begins); `finish` completes the executing request, storing its result and
signaling, before processing the next entry. -/
inductive WStep : Worker → Worker → Prop
  | enq (r : Nat) (w : Worker) : w.running = true →
      WStep w { w with queue := w.queue ++ [r], arrived := w.arrived ++ [r] }
  | begin (r : Nat) (rest : List Nat) (w : Worker) :
      w.current = [] → w.queue = r :: rest →
      WStep w { w with queue := rest, current := [r] }
  | finish (r : Nat) (w : Worker) : w.current = [r] →
      WStep w { w with current := [], executed := w.executed ++ [r] }

/-- The initial state of a running WorkerThread: empty queue, nothing
executing, nothing executed, nothing arrived. -/
def Worker.init : Worker :=
  { running := true, queue := [], current := [], executed := [], arrived := [] }

/-- A state is reachable when a finite sequence of `WStep` transitions leads
to it from the initial state. -/
def Worker.Reachable (w : Worker) : Prop :=
  Relation.ReflTransGen WStep Worker.init w

/-- The serialization invariant: at most one request executes at any
instant, and the completed requests, the executing request and the queued
requests, in that order, are exactly the arrival history in arrival order. -/
def Worker.Inv (w : Worker) : Prop :=
  w.current.length ≤ 1 ∧ w.executed ++ w.current ++ w.queue = w.arrived

theorem wstep_preserves_inv {w w' : Worker} (hw : w.Inv) (h : WStep w w') :
    w'.Inv := by
  obtain ⟨hlen, horder⟩ := hw
  cases h with
  | enq r w hr =>
    refine ⟨hlen, ?_⟩
    simp only [List.append_assoc] at horder ⊢
    rw [← List.append_assoc, ← List.append_assoc, ← horder]
    simp [List.append_assoc]
  | begin r rest w hcur hq =>
    refine ⟨by simp, ?_⟩
    simp only [hcur, hq, List.nil_append, List.append_nil] at horder ⊢
    simpa [List.append_assoc] using horder
  | finish r w hcur =>
    refine ⟨by simp, ?_⟩
    simp only [hcur, List.append_nil] at horder ⊢
    simpa [List.append_assoc] using horder

/-- C3: every reachable state of a WorkerThread has at most one
InvocationRequest executing at that instant, and completed requests followed
by the executing one and the pending queue reproduce the arrival history
exactly — so requests execute in precisely the FIFO order of the queue, and
two requests enqueued in a given order (in particular two submitted by the
same calling thread, which arrive in submission order) execute in that
order. -/
theorem worker_serialized_fifo (w : Worker) (h : w.Reachable) :
    w.current.length ≤ 1 ∧ w.executed ++ w.current ++ w.queue = w.arrived := by
  have : w.Inv := by
    induction h with
    | refl => exact ⟨by simp [Worker.init], by simp [Worker.init]⟩
    | tail _hsteps hstep ih => exact wstep_preserves_inv ih hstep
  exact this

/-- Witness for C3: a concrete reachable state — two requests enqueued, the
first begun and finished, the second begun — satisfies the invariant. -/
theorem worker_serialized_fifo_witness :
    let w : Worker := { running := true, queue := [], current := [2],
                        executed := [1], arrived := [1, 2] }
    w.current.length ≤ 1 ∧ w.executed ++ w.current ++ w.queue = w.arrived := by
  refine worker_serialized_fifo _ ?_
  have s1 : WStep Worker.init
      { running := true, queue := [1], current := [], executed := [],
        arrived := [1] } := WStep.enq 1 Worker.init rfl
  have s2 : WStep
      { running := true, queue := [1], current := [], executed := [],
        arrived := [1] }
      { running := true, queue := [1, 2], current := [], executed := [],
        arrived := [1, 2] } := WStep.enq 2 _ rfl
  have s3 : WStep
      { running := true, queue := [1, 2], current := [], executed := [],
        arrived := [1, 2] }
      { running := true, queue := [2], current := [1], executed := [],
        arrived := [1, 2] } := WStep.begin 1 [2] _ rfl rfl
  have s4 : WStep
      { running := true, queue := [2], current := [1], executed := [],
        arrived := [1, 2] }
      { running := true, queue := [2], current := [], executed := [1],
        arrived := [1, 2] } := WStep.finish 1 _ rfl
  have s5 : WStep
      { running := true, queue := [2], current := [], executed := [1],
        arrived := [1, 2] }
      { running := true, queue := [], current := [2], executed := [1],
        arrived := [1, 2] } := WStep.begin 2 [] _ rfl rfl
  exact Relation.ReflTransGen.tail
    (Relation.ReflTransGen.tail
      (Relation.ReflTransGen.tail
        (Relation.ReflTransGen.tail
          (Relation.ReflTransGen.tail Relation.ReflTransGen.refl s1) s2) s3)
      s4) s5

/-! ### Caller timeout never cancels an enqueued request -/

/-- Modelled from the spec: the result slot and CompletionSignal of a blocking
request use shared ownership — `owners` counts the holders (caller and the
request held by the WorkerThread queue during flight). -/
structure ResultSlot where
  owners : Nat
deriving DecidableEq, Repr

/-- Modelled from the spec: a caller abandoning its wait releases only its own
hold on the shared result storage. -/
def ResultSlot.abandonWait (s : ResultSlot) : ResultSlot :=
  { owners := s.owners - 1 }

/-- Shared storage is valid while at least one holder remains. -/
def ResultSlot.valid (s : ResultSlot) : Bool :=
  decide (0 < s.owners)

/-- A WorkerThread together with the shared result slot of one in-flight
blocking request. -/
structure SysState where
  worker : Worker
  slot : ResultSlot
deriving DecidableEq, Repr

/-- Modelled from the spec: a timed-out blocking AsyncInvoke abandons only the
caller's wait; it touches nothing of the owner WorkerThread's state. -/
def CallerTimeout (s : SysState) : SysState :=
  { s with slot := s.slot.abandonWait }

/-- From an idle execution loop the WorkerThread drains its queue in FIFO
order through `begin`/`finish` steps. -/
theorem reach_drain_idle (b : Bool) (arr : List Nat) :
    ∀ (q ex : List Nat),
      Relation.ReflTransGen WStep
        { running := b, queue := q, current := [], executed := ex,
          arrived := arr }
        { running := b, queue := [], current := [], executed := ex ++ q,
          arrived := arr } := by
  intro q
  induction q with
  | nil => intro ex; simpa using Relation.ReflTransGen.refl
  | cons r rest ih =>
    intro ex
    have s1 : WStep
        { running := b, queue := r :: rest, current := [], executed := ex,
          arrived := arr }
        { running := b, queue := rest, current := [r], executed := ex,
          arrived := arr } := WStep.begin r rest _ rfl rfl
    have s2 : WStep
        { running := b, queue := rest, current := [r], executed := ex,
          arrived := arr }
        { running := b, queue := rest, current := [], executed := ex ++ [r],
          arrived := arr } := WStep.finish r _ rfl
    have s3 := ih (ex ++ [r])
    have : Relation.ReflTransGen WStep
        { running := b, queue := r :: rest, current := [], executed := ex,
          arrived := arr }
        { running := b, queue := [], current := [],
          executed := (ex ++ [r]) ++ rest, arrived := arr } :=
      Relation.ReflTransGen.trans
        (Relation.ReflTransGen.tail
          (Relation.ReflTransGen.single s1) s2) s3
    simpa [List.append_assoc] using this

/-- From any state whose loop holds at most one executing request, the
WorkerThread reaches the fully drained state whose completion history appends
the executing request and the whole pending queue. -/
theorem reach_drain (w : Worker) (h : w.current.length ≤ 1) :
    Relation.ReflTransGen WStep w
      { running := w.running, queue := [], current := [],
        executed := w.executed ++ w.current ++ w.queue,
        arrived := w.arrived } := by
  match hc : w.current with
  | [] =>
    have := reach_drain_idle w.running w.arrived w.queue w.executed
    have hw : w =
        { running := w.running, queue := w.queue, current := [],
          executed := w.executed, arrived := w.arrived } := by
      cases w; simp_all
    rw [hw]
    simpa [hc] using this
  | [r] =>
    have hw : w =
        { running := w.running, queue := w.queue, current := [r],
          executed := w.executed, arrived := w.arrived } := by
      cases w; simp_all
    have s1 : WStep
        { running := w.running, queue := w.queue, current := [r],
          executed := w.executed, arrived := w.arrived }
        { running := w.running, queue := w.queue, current := [],
          executed := w.executed ++ [r], arrived := w.arrived } :=
      WStep.finish r _ rfl
    have s2 := reach_drain_idle w.running w.arrived w.queue
      (w.executed ++ [r])
    rw [hw]
    simpa [hc, List.append_assoc] using
      Relation.ReflTransGen.trans (Relation.ReflTransGen.single s1) s2
  | x :: y :: t =>
    exfalso
    rw [hc] at h
    simp at h

/-- C4: a caller whose blocking wait times out removes nothing from the owner
WorkerThread — its state, queue included, is untouched; the enqueued request
`r` is still executed to completion later (a sequence of owner-thread steps
reaches a state whose completion history contains `r`); and with the two
shared holders of the result slot, abandoning the caller's hold leaves the
storage valid, so the WorkerThread's eventual write lands in still-valid
storage. -/
theorem callerTimeout_never_cancels (s : SysState) (r : Nat)
    (hone : s.worker.current.length ≤ 1)
    (hr : r ∈ s.worker.queue ∨ r ∈ s.worker.current)
    (hown : s.slot.owners = 2) :
    (CallerTimeout s).worker = s.worker ∧
    (∃ w', Relation.ReflTransGen WStep (CallerTimeout s).worker w' ∧
      r ∈ w'.executed) ∧
    (CallerTimeout s).slot.owners = 1 ∧
    (CallerTimeout s).slot.valid = true := by
  refine ⟨rfl, ?_, ?_, ?_⟩
  · refine ⟨_, reach_drain s.worker hone, ?_⟩
    rcases hr with hq | hc
    · simp [hq]
    · simp [hc]
  · simp [CallerTimeout, ResultSlot.abandonWait, hown]
  · simp [CallerTimeout, ResultSlot.abandonWait, ResultSlot.valid, hown]

/-- Witness for C4: request 5 pending in the queue of a running worker whose
loop is idle, result slot held by caller and queue. -/
theorem callerTimeout_never_cancels_witness :
    let s : SysState :=
      { worker := { running := true, queue := [5], current := [],
                    executed := [], arrived := [5] },
        slot := { owners := 2 } }
    (CallerTimeout s).worker = s.worker ∧
    (∃ w', Relation.ReflTransGen WStep (CallerTimeout s).worker w' ∧
      5 ∈ w'.executed) ∧
    (CallerTimeout s).slot.owners = 1 ∧
    (CallerTimeout s).slot.valid = true :=
  callerTimeout_never_cancels _ 5 (by decide) (Or.inl (by decide)) rfl

/-! ### LogBuffer (code name `LogData`) -/

/-- Modelled from the spec: the thread-confined log buffer (`LogData` in the
tests) owns the ordered line sequence `m_msgData` and the multicast registry
`FlushTimeDelegate` of flush-duration observers, each identified for
add/remove, in registration order.  The implementation is not under
`src/`. -/
structure LogData where
  m_msgData : List String
  FlushTimeDelegate : List Nat
deriving DecidableEq, Repr

/-- Modelled from the spec: `Write(line)` appends `line` to the buffer on the
owner WorkerThread and returns a success boolean. -/
def LogData.Write (d : LogData) (line : String) : LogData × Bool :=
  ({ d with m_msgData := d.m_msgData ++ [line] }, true)

/-- The observable outcome of one `Flush`: success boolean, the contents
output, the measured duration in milliseconds, and the observer
notifications in dispatch order. -/
structure FlushOutcome where
  ok : Bool
  output : List String
  duration : Int
  notified : List (Nat × Int)
deriving DecidableEq, Repr

/-- Modelled from the spec: `Flush()` atomically takes the current buffer
contents and clears the buffer, outputs the taken contents, measures the
elapsed wall-clock duration of the whole operation (clock readings `tStart`
at entry and `tEnd` at completion, in milliseconds), then synchronously
invokes every registered flush-duration observer with that duration in
registration order, and returns a success boolean. -/
def LogData.Flush (d : LogData) (tStart tEnd : Int) : LogData × FlushOutcome :=
  let taken := d.m_msgData
  let dur := tEnd - tStart
  ({ d with m_msgData := [] },
   { ok := true, output := taken, duration := dur,
     notified := d.FlushTimeDelegate.map (fun o => (o, dur)) })

/-- Sequential application of `Write` for each line, in arrival order at the
owner WorkerThread. -/
def LogData.writeAll (d : LogData) (lines : List String) : LogData :=
  lines.foldl (fun acc l => (acc.Write l).1) d

theorem writeAll_msgData (d : LogData) (lines : List String) :
    (d.writeAll lines).m_msgData = d.m_msgData ++ lines := by
  induction lines generalizing d with
  | nil => simp [LogData.writeAll]
  | cons l rest ih =>
    simp [LogData.writeAll, LogData.Write] at ih ⊢
    rw [ih]
    simp

theorem writeAll_observers (d : LogData) (lines : List String) :
    (d.writeAll lines).FlushTimeDelegate = d.FlushTimeDelegate := by
  induction lines generalizing d with
  | nil => rfl
  | cons l rest ih => simpa [LogData.writeAll, LogData.Write] using ih _

/-- C2: for every `N` and every serialization `lines` of `N` `Write` calls
(the arrival order at the owner WorkerThread, for an arbitrary interleaving
of arbitrary calling threads), a single subsequent `Flush` of a buffer that
started empty takes exactly those `N` lines: the output is precisely the
arrival sequence, so it has length `N` and every line occurs exactly as many
times as it was written — no line lost and no line duplicated — and the
buffer is left empty. -/
theorem flush_takes_exactly_written
    (obs : List Nat) (lines : List String) (tStart tEnd : Int) :
    let d0 : LogData := { m_msgData := [], FlushTimeDelegate := obs }
    let r := (d0.writeAll lines).Flush tStart tEnd
    r.2.output = lines ∧
    r.2.output.length = lines.length ∧
    (∀ l, r.2.output.count l = lines.count l) ∧
    r.1.m_msgData = [] := by
  intro d0 r
  have hout : r.2.output = lines := by
    show ((d0.writeAll lines).Flush tStart tEnd).2.output = lines
    simp [LogData.Flush, writeAll_msgData, d0]
  refine ⟨hout, by rw [hout], fun l => by rw [hout], rfl⟩

/-- C7: `Flush` performs the specified steps in order: it clears the buffer
having taken exactly its previous contents as the output, reports the
measured duration `tEnd - tStart` — non-negative whenever the completion
reading is not earlier than the entry reading — to every registered observer
in registration order, leaves the registry unchanged, and returns success. -/
theorem flush_steps_and_nonneg_duration
    (d : LogData) (tStart tEnd : Int) (hclock : tStart ≤ tEnd) :
    let r := d.Flush tStart tEnd
    r.2.ok = true ∧
    r.2.output = d.m_msgData ∧
    r.1.m_msgData = [] ∧
    r.1.FlushTimeDelegate = d.FlushTimeDelegate ∧
    r.2.duration = tEnd - tStart ∧
    r.2.notified = d.FlushTimeDelegate.map (fun o => (o, tEnd - tStart)) ∧
    0 ≤ r.2.duration := by
  refine ⟨rfl, rfl, rfl, rfl, rfl, rfl, ?_⟩
  simpa [LogData.Flush] using Int.sub_nonneg.mpr hclock

/-- Witness for C7: flushing a two-line buffer with two observers between
clock readings 100 and 103. -/
theorem flush_steps_and_nonneg_duration_witness :
    let d : LogData :=
      { m_msgData := ["a", "b"], FlushTimeDelegate := [1, 2] }
    let r := d.Flush 100 103
    r.2.ok = true ∧
    r.2.output = d.m_msgData ∧
    r.1.m_msgData = [] ∧
    r.1.FlushTimeDelegate = d.FlushTimeDelegate ∧
    r.2.duration = 103 - 100 ∧
    r.2.notified = d.FlushTimeDelegate.map (fun o => (o, 103 - 100)) ∧
    0 ≤ r.2.duration :=
  flush_steps_and_nonneg_duration _ 100 103 (by decide)

/-! ### Logger status callback -/

/-- Modelled from the spec: the `Logger` singleton owns the thread-confined
`m_logData` and a single-slot status callback set by `SetCallback`
(replace semantics, `none` clears it), invoked on the owner thread.  The
implementation is not under `src/`. -/
structure Logger where
  m_logData : LogData
  callback : Option Nat
deriving DecidableEq, Repr

/-- Modelled from the spec: `SetCallback(cb)` accepts at most one subscriber,
replacing any previous one; `none` clears the slot. -/
def Logger.SetCallback (lg : Logger) (cb : Option Nat) : Logger :=
  { lg with callback := cb }

/-- The notifications the single-slot status callback receives: one message
when the slot is occupied, none when it is clear. -/
def notifyStatus (cb : Option Nat) (msg : String) : List String :=
  match cb with
  | some _ => [msg]
  | none => []

/-- Modelled from the spec: processing of one `Write` on the owner
WorkerThread; after a successful write the status callback is invoked
synchronously, once, with the write-success notification. -/
def Logger.doWrite (lg : Logger) (line : String) :
    Logger × Bool × List String :=
  let r := lg.m_logData.Write line
  ({ lg with m_logData := r.1 }, r.2,
   if r.2 then notifyStatus lg.callback "Write success!" else [])

/-- Modelled from the spec: processing of one `Flush` on the owner
WorkerThread; after a successful flush the status callback is invoked
synchronously, once, with the flush-success notification. -/
def Logger.doFlush (lg : Logger) (tStart tEnd : Int) :
    Logger × Bool × List String :=
  let r := lg.m_logData.Flush tStart tEnd
  ({ lg with m_logData := r.1 }, r.2.ok,
   if r.2.ok then notifyStatus lg.callback "Flush success!" else [])

/-- C8: with a status callback registered, executing `Write("X")` and then
`Flush()` (both submitted from a non-owner thread, processed in FIFO order on
the owner thread) makes the callback observe exactly two notifications in
order — write-success first, then flush-success; and in general each
successful `Write` triggers exactly one write-success notification and each
successful `Flush` exactly one flush-success notification. -/
theorem status_callback_write_then_flush (lg : Logger) (c : Nat)
    (tStart tEnd : Int) (hcb : lg.callback = some c) :
    let r1 := lg.doWrite "X"
    let r2 := r1.1.doFlush tStart tEnd
    r1.2.1 = true ∧ r2.2.1 = true ∧
    r1.2.2 ++ r2.2.2 = ["Write success!", "Flush success!"] ∧
    (∀ line, (lg.doWrite line).2.2 = ["Write success!"]) ∧
    (lg.doFlush tStart tEnd).2.2 = ["Flush success!"] := by
  refine ⟨rfl, rfl, ?_, ?_, ?_⟩
  · simp [Logger.doWrite, Logger.doFlush, LogData.Write, LogData.Flush,
      notifyStatus, hcb]
  · intro line
    simp [Logger.doWrite, LogData.Write, notifyStatus, hcb]
  · simp [Logger.doFlush, LogData.Flush, notifyStatus, hcb]

/-- Witness for C8 with callback 0 registered on an empty logger. -/
theorem status_callback_write_then_flush_witness :
    let lg : Logger :=
      { m_logData := { m_msgData := [], FlushTimeDelegate := [] },
        callback := some 0 }
    let r1 := lg.doWrite "X"
    let r2 := r1.1.doFlush 0 1
    r1.2.1 = true ∧ r2.2.1 = true ∧
    r1.2.2 ++ r2.2.2 = ["Write success!", "Flush success!"] ∧
    (∀ line, (lg.doWrite line).2.2 = ["Write success!"]) ∧
    (lg.doFlush 0 1).2.2 = ["Flush success!"] :=
  status_callback_write_then_flush _ 0 0 1 rfl

/-- Modelled from the spec and `TEST(Logger_IT, Write)`: the public
`Logger::Write` enqueues the write onto the Logger thread, and after a
successful write the Logger itself schedules a `Flush` through the same
queue — the flush is not invoked by any caller.  The pair below is the final
logger state and the full notification sequence the status callback
observes. -/
def Logger.WriteAutoFlush (lg : Logger) (line : String) (tStart tEnd : Int) :
    Logger × List String :=
  let r1 := lg.doWrite line
  let r2 := r1.1.doFlush tStart tEnd
  (r2.1, r1.2.2 ++ r2.2.2)

/-- C10: a single `Logger::Write` with a status callback registered and no
caller ever invoking `Flush` still produces exactly two notifications, in
order: the write-success notification first, then a flush-success
notification from the flush the Logger scheduled automatically after the
write; the automatically flushed buffer ends empty. -/
theorem single_write_auto_flush_notifications (lg : Logger) (c : Nat)
    (line : String) (tStart tEnd : Int) (hcb : lg.callback = some c) :
    (lg.WriteAutoFlush line tStart tEnd).2 =
      ["Write success!", "Flush success!"] ∧
    (lg.WriteAutoFlush line tStart tEnd).1.m_logData.m_msgData = [] := by
  constructor
  · simp [Logger.WriteAutoFlush, Logger.doWrite, Logger.doFlush,
      LogData.Write, LogData.Flush, notifyStatus, hcb]
  · rfl

/-- Witness for C10: one write on an empty logger with callback 3. -/
theorem single_write_auto_flush_notifications_witness :
    let lg : Logger :=
      { m_logData := { m_msgData := [], FlushTimeDelegate := [] },
        callback := some 3 }
    (lg.WriteAutoFlush "LoggerTest, Write" 0 2).2 =
      ["Write success!", "Flush success!"] ∧
    (lg.WriteAutoFlush "LoggerTest, Write" 0 2).1.m_logData.m_msgData = [] :=
  single_write_auto_flush_notifications _ 3 "LoggerTest, Write" 0 2 rfl

/-! ### Timer -/

/-- Modelled from the spec: the per-arming states of a one-shot `Timer`.
The implementation is not under `src/`. -/
inductive TimerState where
  | idle
  | armed (deadline : Nat)
  | fired
  | cancelled
deriving DecidableEq, Repr

/-- Modelled from the spec: `Start(delay)` at instant `now` arms a one-shot
deadline `now + delay` from the idle state. -/
def TimerState.Start (t : TimerState) (now delay : Nat) : TimerState :=
  match t with
  | .idle => .armed (now + delay)
  | s => s

/-- Modelled from the spec: `Stop()` cancels the pending firing if not yet
dispatched; it is a no-op otherwise. -/
def TimerState.Stop (t : TimerState) : TimerState :=
  match t with
  | .armed _ => .cancelled
  | s => s

/-- Modelled from the spec: one poll of the timer's clock thread at instant
`now`.  When armed and the deadline has elapsed, the timer submits its bound
zero-argument request `req` onto its target WorkerThread through the same
`Enqueue` path used by AsyncInvoke — the timer thread never executes the
bound operation directly.  Otherwise nothing happens. -/
def TimerState.Tick (t : TimerState) (now : Nat) (w : Worker) (req : Nat) :
    TimerState × Worker :=
  match t with
  | .armed d => if d ≤ now then (.fired, (Enqueue w req).1) else (.armed d, w)
  | s => (s, w)

/-- C9: the Timer state machine moves idle → armed on `Start(delay)`; an
armed timer stays armed until the deadline elapses or `Stop` is called, the
deadline elapsing moves it to `fired` while submitting the bound request
through the WorkerThread `Enqueue` path (the request lands at the tail of
the target queue and is never executed directly by the timer's own thread),
`Stop` before the firing moves it to `cancelled` with the target WorkerThread
untouched — so the bound operation is never executed for that arming — and
`fired` and `cancelled` are terminal: `Start`, `Stop` and further polls all
leave them unchanged, making `Stop` after dispatch a no-op. -/
theorem timer_state_machine (now delay dl : Nat) (w : Worker) (req : Nat)
    (helapsed : dl ≤ now) (hrun : w.running = true) :
    TimerState.idle.Start now delay = .armed (now + delay) ∧
    (¬ dl ≤ now → (TimerState.armed dl).Tick now w req = (.armed dl, w)) ∧
    ((TimerState.armed dl).Tick now w req).1 = .fired ∧
    ((TimerState.armed dl).Tick now w req).2.queue = w.queue ++ [req] ∧
    ((TimerState.armed dl).Tick now w req).2.executed = w.executed ∧
    ((TimerState.armed dl).Tick now w req).2.current = w.current ∧
    (TimerState.armed dl).Stop = .cancelled ∧
    (TimerState.armed dl).Stop.Tick now w req = (.cancelled, w) ∧
    TimerState.fired.Stop = .fired ∧
    TimerState.cancelled.Stop = .cancelled ∧
    TimerState.fired.Tick now w req = (.fired, w) ∧
    TimerState.cancelled.Tick now w req = (.cancelled, w) ∧
    TimerState.fired.Start now delay = .fired ∧
    TimerState.cancelled.Start now delay = .cancelled := by
  refine ⟨rfl, ?_, ?_, ?_, ?_, ?_, rfl, rfl, rfl, rfl, rfl, rfl, rfl, rfl⟩
  · intro h; exact absurd helapsed h
  · simp [TimerState.Tick, helapsed]
  · simp [TimerState.Tick, helapsed, Enqueue, hrun]
  · simp [TimerState.Tick, helapsed, Enqueue, hrun]
  · simp [TimerState.Tick, helapsed, Enqueue, hrun]

/-- Witness for C9: deadline 5 polled at instant 7 against a running worker
with one queued request. -/
theorem timer_state_machine_witness :
    let w : Worker := { running := true, queue := [9], current := [],
                        executed := [], arrived := [9] }
    TimerState.idle.Start 7 500 = .armed (7 + 500) ∧
    (¬ (5 : Nat) ≤ 7 → (TimerState.armed 5).Tick 7 w 4 = (.armed 5, w)) ∧
    ((TimerState.armed 5).Tick 7 w 4).1 = .fired ∧
    ((TimerState.armed 5).Tick 7 w 4).2.queue = w.queue ++ [4] ∧
    ((TimerState.armed 5).Tick 7 w 4).2.executed = w.executed ∧
    ((TimerState.armed 5).Tick 7 w 4).2.current = w.current ∧
    (TimerState.armed 5).Stop = .cancelled ∧
    (TimerState.armed 5).Stop.Tick 7 w 4 = (.cancelled, w) ∧
    TimerState.fired.Stop = .fired ∧
    TimerState.cancelled.Stop = .cancelled ∧
    TimerState.fired.Tick 7 w 4 = (.fired, w) ∧
    TimerState.cancelled.Tick 7 w 4 = (.cancelled, w) ∧
    TimerState.fired.Start 7 500 = .fired ∧
    TimerState.cancelled.Start 7 500 = .cancelled :=
  timer_state_machine 7 500 5 _ 4 (by decide) rfl

end ITFramework
